import Mathlib

/-!
Shallow embedding of the notion-to-google-calendar synchronization program
(src/notion2gcalendar.py) and proofs about its parsing, projection and
reconciliation layers.

Python strings are modelled as lists of characters; Python dicts keyed by
strings are modelled as association lists whose insertion replaces the value
in place when the key already exists.  A Python statement that raises and is
caught by the per record try block is modelled by an Option valued function
returning none.  Network calls are modelled by a Port record: the rendered
end instant of a projected event (which depends on the wall clock and the
host timezone) and the outcome the calendar service returns for each write.
-/

namespace NotionSync

/-- Python strings, modelled as lists of characters. -/
abbrev Str := List Char

/-- The characters removed by the Python method strip with no argument. -/
def pyWs (c : Char) : Bool :=
  c == (' ') || c == ('\t') || c == ('\n') || c == ('\r') || c == ('\x0b') || c == ('\x0c')

/-- Python s.strip(): remove leading and trailing whitespace. -/
def pyStrip (s : Str) : Str :=
  ((s.dropWhile pyWs).reverse.dropWhile pyWs).reverse

/-- A string left unchanged by strip at either end. -/
def stripInv (s : Str) : Prop :=
  s.dropWhile pyWs = s ∧ s.reverse.dropWhile pyWs = s.reverse

instance (s : Str) : Decidable (stripInv s) :=
  inferInstanceAs (Decidable (_ = _ ∧ _ = _))

/-- Helper of pySplit accumulating the current piece in reverse. -/
def pySplitAux (sep : Char) : Str → Str → List Str
  | [], acc => [acc.reverse]
  | c :: cs, acc =>
    if c = sep then acc.reverse :: pySplitAux sep cs []
    else pySplitAux sep cs (c :: acc)

/-- Python s.split(sep) for a one character separator: splits at every
occurrence of sep and keeps empty pieces; the result is never empty. -/
def pySplit (sep : Char) (s : Str) : List Str :=
  pySplitAux sep s []

/-- Python negative list indexing l[-i], none when the index is out of range
(an IndexError in Python). -/
def pyNegIdx (l : List Str) (i : Nat) : Option Str :=
  if i ≤ l.length ∧ 0 < i then l.get? (l.length - i) else none

/-- Python dict assignment d[k] = v on a dict modelled as an association
list: an existing binding is overwritten in place, a new key is appended. -/
def dictInsert {α : Type} (d : List (Str × α)) (k : Str) (v : α) : List (Str × α) :=
  if (d.map Prod.fst).contains k then
    d.map (fun p => if p.1 = k then (k, v) else p)
  else d ++ [(k, v)]

/-- Python dict lookup d[k], none when the key is absent (a KeyError). -/
def dictGet? {α : Type} (d : List (Str × α)) (k : Str) : Option α :=
  (d.find? (fun p => p.1 == k)).map Prod.snd

/-- Python set(d.keys()): the keys of the dict, without duplicates. -/
def dictKeys {α : Type} (d : List (Str × α)) : List Str :=
  (d.map Prod.fst).dedup

def nlChar : Char := ('\n')
def colonChar : Char := (':')
def tChar : Char := ('T')
def plusChar : Char := ('+')
def dotChar : Char := ('.')

/-- A normalized task as built by parse_tasks_in_database.  The category
field is either a Python string (the comma joined tag names) or, for the
empty tag list, the Python list holding the sentinel written at source line
214. -/
structure Task where
  task_id : Str
  name : Str
  description : Str
  notes : Str
  category : Str ⊕ List Str
  assignment_date : Str
  assignment_hour : Str
  due_date : Str
  due_hour : Str
  user_time_zone : Str
  last_edited_time : Str
deriving DecidableEq

/-- A normalized event as built by parse_events. -/
structure Event where
  event_id : Str
  subject : Str
  description : Str
  notes : Str
  category : Str
  assignment_date : Str
  due_date : Str
  due_hour : Str
  last_edited_time : Str
  task_id : Str
deriving DecidableEq

/-- The fields of one raw calendar event read by parse_events.  A field whose
access would raise a KeyError (absent summary or description, or an end
without a dateTime entry) is modelled by none; the id of a calendar item is
always present. -/
structure RawEvent where
  id : Str
  summary : Option Str
  description : Option Str
  endDateTime : Option Str
deriving DecidableEq

/-- The body of the per event try block of parse_events (source lines
75-96): none when the Python code would raise, sending [elem, error] to the
error list. -/
def parseEvent (elem : RawEvent) : Option Event := do
  let subject ← elem.summary
  let body ← elem.description
  let description := pySplit nlChar (pyStrip body)
  let line0 ← description.get? 0
  let descVal ← (pySplit colonChar line0).get? 1
  let line1 ← description.get? 1
  let notesVal ← (pySplit colonChar line1).get? 1
  let line2 ← description.get? 2
  let catVal ← (pySplit colonChar line2).get? 1
  let line3 ← description.get? 3
  let adVal ← (pySplit colonChar line3).get? 1
  let endDT ← elem.endDateTime
  let dueDate := pySplit tChar endDT
  let due_date ← dueDate.get? 0
  let due_hour ← dueDate.get? 1
  let lastLine2 ← pyNegIdx description 2
  let lastLine1 ← pyNegIdx description 1
  some { event_id := elem.id, subject,
         description := pyStrip descVal, notes := pyStrip notesVal,
         category := pyStrip catVal, assignment_date := pyStrip adVal,
         due_date, due_hour,
         last_edited_time := pyStrip lastLine2, task_id := pyStrip lastLine1 }

/-- parse_events (source lines 60-98): the dict of parsed events keyed by
decoded task_id, and the list of events whose parse raised. -/
def parse_events (events : List RawEvent) : List (Str × Event) × List RawEvent :=
  events.foldl
    (fun acc elem =>
      match parseEvent elem with
      | some tmp => (dictInsert acc.1 tmp.task_id tmp, acc.2)
      | none => (acc.1, acc.2 ++ [elem]))
    ([], [])

/-- The payload handed to the calendar service for a create or update; the
constant reminder overrides carry no information and are omitted. -/
structure EventPayload where
  summary : Str
  description : Str
  endDateTime : Str
deriving DecidableEq

/-- The eight line description body written by task_to_event (source lines
121-128), as a function of the already string valued pieces. -/
def mkBody (d n c a le ti : Str) : Str :=
  ("Description: ").data ++ d ++ [nlChar]
    ++ ("Notes: ").data ++ n ++ [nlChar]
    ++ ("Category: ").data ++ c ++ [nlChar]
    ++ ("Assignment Date: ").data ++ a ++ [nlChar]
    ++ ("----------").data ++ [nlChar]
    ++ ("Please do not edit following lines!").data ++ [nlChar]
    ++ le ++ [nlChar]
    ++ ti ++ [nlChar]

/-- task_to_event (source lines 101-143).  The start and end instants go
through datetime arithmetic, the host timezone and isoformat, a rendering
that depends on the wall clock; it is abstracted as the endIso argument, the
rendered end dateTime of the payload.  Concatenating the Category label with
a task whose category is the list sentinel raises TypeError in Python,
modelled by none. -/
def task_to_event (endIso : Str) (task : Task) : Option EventPayload := do
  let cat ← match task.category with
    | Sum.inl s => some s
    | Sum.inr _ => none
  some { summary := task.name,
         description := mkBody task.description task.notes cat
           (task.assignment_date ++ (" - ").data ++ task.assignment_hour)
           task.last_edited_time task.task_id,
         endDateTime := endIso }

/-- A calendar item as read back after a create: the projected payload plus
the calendar assigned id. -/
def payloadToRaw (eid : Str) (p : EventPayload) : RawEvent :=
  { id := eid, summary := some p.summary, description := some p.description,
    endDateTime := some p.endDateTime }

/-- Python ", ".join(names). -/
def commaJoin (l : List Str) : Str :=
  (l.intersperse ((", ").data)).flatten

/-- Python x != type(None): a string value or the value None never equals
the class NoneType, so the comparison at source line 216 is true for every
start value. -/
def neqNoneType (_x : Option Str) : Bool := true

/-- The fields of one raw database record used by parse_tasks_in_database.
A missing structural path (a Python KeyError or TypeError on the nested
property access) is modelled by none: status stands for
properties.Status.select.name, the two date_obj fields stand for
properties.X.date, and their inner Option is the start value, none when it
is JSON null. -/
structure RawRecord where
  id : Str
  created_time : Str
  last_edited_time : Str
  status : Option Str
  name_title : Option (List Str)
  description_rich : Option (List Str)
  notes_rich : Option (List Str)
  category_multi : Option (List Str)
  assignment_date_obj : Option (Option Str)
  due_date_obj : Option (Option Str)
deriving DecidableEq

/-- The try block of parse_tasks_in_database for one open status record
(source lines 187-251): none when the Python code would raise, sending the
record to the error list. -/
def parseRecord (elem : RawRecord) : Option Task := do
  let task_id := elem.id
  let title ← elem.name_title
  let name := match title with
    | t0 :: _ => t0
    | [] => ("Title is not specified!").data
  let rich ← elem.description_rich
  let description := match rich with
    | r0 :: _ => r0
    | [] => ("Description is empty!").data
  let notesRich ← elem.notes_rich
  let notes := match notesRich with
    | n0 :: _ => n0
    | [] => ("Notes are empty!").data
  let multi ← elem.category_multi
  let category : Str ⊕ List Str :=
    if multi.length ≠ 0 then Sum.inl (commaJoin multi)
    else Sum.inr [("Not categorized!").data]
  let dateObj ← elem.assignment_date_obj
  let adTriple ←
    if neqNoneType dateObj then
      match dateObj with
      | none => none
      | some s =>
        match pySplit tChar s with
        | [p0, p1] => do
            let utz ← (pySplit plusChar p1).get? 1
            some (p0, (pySplit dotChar p1).headI, utz)
        | p0 :: _ => some (p0, ("00:00").data, ([] : Str))
        | [] => none
    else
      some ((("Assignment date is missing!").data, ([] : Str), ([] : Str)))
  let dueObj ← elem.due_date_obj
  let quad ←
    match dueObj with
    | some s =>
      match pySplit tChar s with
      | [p0, p1] => do
          let utz ← (pySplit plusChar p1).get? 1
          some (adTriple.1, p0, (pySplit dotChar p1).headI, utz)
      | p0 :: _ =>
          some (adTriple.1, p0, ("12:00:00").data,
            if adTriple.2.2 = ([] : Str) then ("00:00").data else adTriple.2.2)
      | [] => none
    | none =>
      match pySplit tChar elem.created_time with
      | p0 :: p1 :: _ =>
          some ((("DUE DATE IS NOT SPECIFIED. TASK IS CREATED ON CREATION TIME!").data,
            p0, (pySplit dotChar p1).headI, adTriple.2.2))
      | _ => none
  some { task_id, name, description, notes, category,
         assignment_date := quad.1, assignment_hour := adTriple.2.1,
         due_date := quad.2.1, due_hour := quad.2.2.1, user_time_zone := quad.2.2.2,
         last_edited_time := elem.last_edited_time }

/-- One iteration of the main loop of parse_tasks_in_database (source lines
177-251): a record whose status is unreadable is skipped with a diagnostic
only, a record whose status is Completed, Closed or Failed is skipped, any
other record is parsed into the dict or appended to the error list. -/
def recordStep (acc : List (Str × Task) × List RawRecord) (elem : RawRecord) :
    List (Str × Task) × List RawRecord :=
  match elem.status with
  | none => acc
  | some st =>
    if st = ("Completed").data ∨ st = ("Closed").data ∨ st = ("Failed").data then acc
    else
      match parseRecord elem with
      | some tmp => (dictInsert acc.1 tmp.task_id tmp, acc.2)
      | none => (acc.1, acc.2 ++ [elem])

/-- parse_tasks_in_database (source lines 172-253), taking the already
decoded results array of the database response. -/
def parse_tasks_in_database (results : List RawRecord) :
    List (Str × Task) × List RawRecord :=
  results.foldl recordStep ([], [])

/-- A calendar write issued through the Google service object. -/
inductive CalCall where
  | insert (body : EventPayload)
  | update (eventId : Str) (body : EventPayload)
  | delete (eventId : Str)
deriving DecidableEq

/-- The environment of one run: endIso renders the end instant of the
projected event of a task (the datetime arithmetic, host timezone and wall
clock fallback live outside the embedding), and result gives the outcome the
calendar service returns for a write, none for success and some msg for the
caught exception rendered by str(error). -/
structure Port where
  endIso : Task → Str
  result : CalCall → Option Str

/-- to_create (source lines 256-281): projects the task outside the try
block, so a projection error propagates uncaught (none); otherwise issues
one insert and returns the value the Python function returns. -/
def to_create (port : Port) (task : Task) : Option (Option Str × List CalCall) := do
  let event ← task_to_event (port.endIso task) task
  let c := CalCall.insert event
  some (port.result c, [c])

/-- to_delete (source lines 284-309): issues one delete with the stored
event id of the parsed event. -/
def to_delete (port : Port) (parsed_event : Event) : Option (Option Str × List CalCall) :=
  let c := CalCall.delete parsed_event.event_id
  some (port.result c, [c])

/-- may_update (source lines 312-339): compares last_edited_time by string
equality; when different, projects the task outside the try block and issues
one update with the stored event id; when equal, does nothing and returns
None. -/
def may_update (port : Port) (task : Task) (parsed_event : Event) :
    Option (Option Str × List CalCall) :=
  if task.last_edited_time ≠ parsed_event.last_edited_time then do
    let tmp ← task_to_event (port.endIso task) task
    let c := CalCall.update parsed_event.event_id tmp
    some (port.result c, [c])
  else some (none, [])

/-- The three key sets computed at source lines 361-366.  Python set
iteration order is unspecified; it is realized here as filtered key lists. -/
def syncKeySets (parsed_tasks : List (Str × Task)) (parsed_events : List (Str × Event)) :
    List Str × List Str × List Str :=
  let tasks_on_notion := dictKeys parsed_tasks
  let tasks_on_calendar := dictKeys parsed_events
  (tasks_on_notion.filter (fun k => !(decide (k ∈ tasks_on_calendar))),
   tasks_on_calendar.filter (fun k => !(decide (k ∈ tasks_on_notion))),
   tasks_on_calendar.filter (fun k => decide (k ∈ tasks_on_notion)))

/-- One iteration of an action loop of synchronize_tasks: the error value
returned by the action is appended for the visited key and the issued calls
are recorded; none once an uncaught exception has escaped. -/
def runStep (step : Str → Option (Option Str × List CalCall))
    (acc : Option (List (Option Str) × List CalCall)) (k : Str) :
    Option (List (Option Str) × List CalCall) :=
  match acc, step k with
  | some a, some r => some (a.1 ++ [r.1], a.2 ++ r.2)
  | _, _ => none

/-- One action loop of synchronize_tasks: the returned error value is
appended for every visited key and the issued calls are recorded; none when
an uncaught exception escapes the loop. -/
def runActions (step : Str → Option (Option Str × List CalCall)) (ks : List Str) :
    Option (List (Option Str) × List CalCall) :=
  ks.foldl (runStep step) (some ([], []))

/-- The value synchronize_tasks returns, plus the trace of calendar writes
issued during the run (an observable added by the embedding). -/
structure SyncResult where
  task_ids : List (List Str)
  errors : List (List (Option Str))
  calls : List CalCall
deriving DecidableEq

/-- synchronize_tasks (source lines 342-386); none models an uncaught
exception, such as a projection TypeError, aborting the run with nothing
returned. -/
def synchronize_tasks (port : Port) (parsed_tasks : List (Str × Task))
    (parsed_events : List (Str × Event)) : Option SyncResult :=
  match runActions
      (fun k => (dictGet? parsed_tasks k).bind (fun t => to_create port t))
      (syncKeySets parsed_tasks parsed_events).1,
    runActions
      (fun k => (dictGet? parsed_events k).bind (fun e => to_delete port e))
      (syncKeySets parsed_tasks parsed_events).2.1,
    runActions
      (fun k => (dictGet? parsed_tasks k).bind (fun t =>
        (dictGet? parsed_events k).bind (fun e => may_update port t e)))
      (syncKeySets parsed_tasks parsed_events).2.2 with
  | some createRes, some deleteRes, some updateRes =>
    some { task_ids := [(syncKeySets parsed_tasks parsed_events).1,
                        (syncKeySets parsed_tasks parsed_events).2.1,
                        (syncKeySets parsed_tasks parsed_events).2.2],
           errors := [createRes.1, deleteRes.1, updateRes.1],
           calls := createRes.2 ++ deleteRes.2 ++ updateRes.2 }
  | _, _, _ => none

/-- The piece of a string before its first colon, the whole string when it
has none: what survives of a field value split at every colon when the piece
at index 1 is taken. -/
def notColon (ch : Char) : Bool := !(ch == colonChar)

/-- Joins lines with a newline separator, the inverse direction of splitting
a newline free line list. -/
def joinLines : List Str → Str
  | [] => []
  | [l] => l
  | l :: ls => l ++ nlChar :: joinLines ls

/-- A task whose text fields survive the wire format: no field embeds a
newline, the category is a plain string, the marker lines carry no
surrounding whitespace and the task id is nonempty. -/
def CleanTask (t : Task) : Prop :=
  nlChar ∉ t.description ∧ nlChar ∉ t.notes ∧
  (∃ c, t.category = Sum.inl c ∧ nlChar ∉ c) ∧
  nlChar ∉ t.assignment_date ∧ nlChar ∉ t.assignment_hour ∧
  nlChar ∉ t.last_edited_time ∧ stripInv t.last_edited_time ∧
  nlChar ∉ t.task_id ∧ stripInv t.task_id ∧ t.task_id ≠ []

/-! ### Concrete fixtures used by witnesses and counterexamples -/

/-- An environment whose calendar accepts every write and whose rendered end
instant is a fixed iso timestamp. -/
def port0 : Port :=
  { endIso := fun _ => ("2024-05-01T12:30:00+00:00").data,
    result := fun _ => none }

/-- A concrete normalized task with clean fields. -/
def t0 : Task :=
  { task_id := ("abc").data, name := ("nm").data, description := ("d").data,
    notes := ("n").data, category := Sum.inl (("c").data),
    assignment_date := ("2024-05-01").data, assignment_hour := ("00:00").data,
    due_date := ("2024-05-01").data, due_hour := ("12:00:00").data,
    user_time_zone := ("00:00").data, last_edited_time := ("t1").data }

/-- The task t0 after an edit on the store side: only the marker advanced. -/
def t1 : Task := { t0 with last_edited_time := ("t2").data }

/-- The task t0 with the empty tag list sentinel written by source line 214
and an advanced marker. -/
def tBad : Task :=
  { t0 with category := Sum.inr [("Not categorized!").data],
            last_edited_time := ("t2").data }

/-- A concrete parsed event carrying the marker of t0. -/
def ev0 : Event :=
  { event_id := ("ev1").data, subject := ("nm").data, description := ("d").data,
    notes := ("n").data, category := ("c").data,
    assignment_date := ("2024-05-01 - 00").data,
    due_date := ("2024-05-01").data, due_hour := ("12:30:00+00:00").data,
    last_edited_time := ("t1").data, task_id := ("abc").data }

/-- The payload task_to_event projects from t0 under port0. -/
def pay0 : EventPayload :=
  { summary := ("nm").data,
    description := mkBody (("d").data) (("n").data) (("c").data)
      ((("2024-05-01").data ++ (" - ").data ++ ("00:00").data))
      (("t1").data) (("abc").data),
    endDateTime := ("2024-05-01T12:30:00+00:00").data }

/-- The payload task_to_event projects from t1 under port0. -/
def pay1 : EventPayload :=
  { summary := ("nm").data,
    description := mkBody (("d").data) (("n").data) (("c").data)
      ((("2024-05-01").data ++ (" - ").data ++ ("00:00").data))
      (("t2").data) (("abc").data),
    endDateTime := ("2024-05-01T12:30:00+00:00").data }

/-- A one task dict under key a. -/
def dictTA : List (Str × Task) := [((("a").data), t0)]

/-- A one event dict under key b. -/
def dictEB : List (Str × Event) := [((("b").data), ev0)]

/-- The value synchronize_tasks returns on dictTA and dictEB under port0. -/
def resTA : SyncResult :=
  { task_ids := [[("a").data], [("b").data], []],
    errors := [[none], [none], []],
    calls := [CalCall.insert pay0, CalCall.delete (("ev1").data)] }

/-- A raw event whose description line holds a value containing a colon. -/
def rawColonEvent : RawEvent :=
  { id := ("e5").data, summary := some (("s5").data),
    description := some
      (("Description: a:b\nNotes: n\nCategory: c\nAssignment Date: ad\nt9\nid9\n").data),
    endDateTime := some (("2024-01-01T00:00:00Z").data) }

/-- A raw event decoding to task id id1. -/
def rawEvA : RawEvent :=
  { id := ("e1").data, summary := some (("s1").data),
    description := some
      (("Description: d1\nNotes: n1\nCategory: c1\nAssignment Date: a1\nt1\nid1\n").data),
    endDateTime := some (("2024-01-01T00:00:00").data) }

/-- A second raw event decoding to the same task id id1 with other content. -/
def rawEvB : RawEvent :=
  { id := ("e2").data, summary := some (("s2").data),
    description := some
      (("Description: d2\nNotes: n2\nCategory: c2\nAssignment Date: a2\nt2\nid1\n").data),
    endDateTime := some (("2024-02-02T00:00:00").data) }

/-- The task t0 with a newline inside its description, whose colon free
continuation line breaks the event decode of the projected payload. -/
def tNl : Task := { t0 with description := ("d\nx").data }

/-- The payload task_to_event projects from tNl under port0. -/
def payNl : EventPayload :=
  { summary := ("nm").data,
    description := mkBody (("d\nx").data) (("n").data) (("c").data)
      ((("2024-05-01").data ++ (" - ").data ++ ("00:00").data))
      (("t1").data) (("abc").data),
    endDateTime := ("2024-05-01T12:30:00+00:00").data }

/-- The event parse_events decodes from rawEvA. -/
def evA : Event :=
  { event_id := ("e1").data, subject := ("s1").data, description := ("d1").data,
    notes := ("n1").data, category := ("c1").data, assignment_date := ("a1").data,
    due_date := ("2024-01-01").data, due_hour := ("00:00:00").data,
    last_edited_time := ("t1").data, task_id := ("id1").data }

/-- The event parse_events decodes from rawEvB. -/
def evB : Event :=
  { event_id := ("e2").data, subject := ("s2").data, description := ("d2").data,
    notes := ("n2").data, category := ("c2").data, assignment_date := ("a2").data,
    due_date := ("2024-02-02").data, due_hour := ("00:00:00").data,
    last_edited_time := ("t2").data, task_id := ("id1").data }

/-- A raw database record with open status and every property present. -/
def record0 : RawRecord :=
  { id := ("r1").data, created_time := ("2024-01-01T00:00:00.000+00:00").data,
    last_edited_time := ("t1").data, status := some (("In Progress").data),
    name_title := some [("nm").data], description_rich := some [("d").data],
    notes_rich := some [("n").data],
    category_multi := some [("a").data, ("b").data],
    assignment_date_obj := some (some (("2024-05-01").data)),
    due_date_obj := some (some (("2024-05-02").data)) }

/-- The record record0 with status Completed. -/
def record7 : RawRecord := { record0 with status := some (("Completed").data) }

/-- The record record0 with an empty tag list. -/
def record8 : RawRecord := { record0 with category_multi := some [] }

/-- The record record0 with a JSON null Assignment Date start value. -/
def record10 : RawRecord := { record0 with assignment_date_obj := some none }

/-! ### Lemmas on the Python string primitives -/

theorem get?_zero {α : Type} (l : List α) : l.get? 0 = l.head? := by
  cases l <;> rfl

theorem pySplitAux_not_mem {sep : Char} (s : Str) : ∀ acc : Str, sep ∉ s →
    pySplitAux sep s acc = [acc.reverse ++ s] := by
  induction s with
  | nil => intro acc _; simp [pySplitAux]
  | cons c cs ih =>
    intro acc h
    have hc : ¬ c = sep := by
      rintro rfl; exact h (List.mem_cons_self _ _)
    rw [pySplitAux, if_neg hc, ih (c :: acc) (fun hm => h (List.mem_cons_of_mem _ hm))]
    simp

theorem pySplit_not_mem {sep : Char} {s : Str} (h : sep ∉ s) :
    pySplit sep s = [s] := by
  rw [pySplit, pySplitAux_not_mem s [] h]; rfl

theorem pySplitAux_append {sep : Char} (a : Str) : ∀ acc b : Str, sep ∉ a →
    pySplitAux sep (a ++ sep :: b) acc = (acc.reverse ++ a) :: pySplit sep b := by
  induction a with
  | nil => intro acc b _; simp [pySplitAux, pySplit]
  | cons c cs ih =>
    intro acc b h
    have hc : ¬ c = sep := by
      rintro rfl; exact h (List.mem_cons_self _ _)
    rw [List.cons_append, pySplitAux, if_neg hc,
      ih (c :: acc) b (fun hm => h (List.mem_cons_of_mem _ hm))]
    simp

theorem pySplit_append {sep : Char} {a : Str} (b : Str) (h : sep ∉ a) :
    pySplit sep (a ++ sep :: b) = a :: pySplit sep b := by
  rw [pySplit, pySplitAux_append a [] b h]; rfl

theorem pySplitAux_head {sep : Char} (s : Str) : ∀ acc : Str,
    (pySplitAux sep s acc).head? = some (acc.reverse ++ s.takeWhile (fun ch => !(ch == sep))) := by
  induction s with
  | nil => intro acc; simp [pySplitAux]
  | cons c cs ih =>
    intro acc
    by_cases hc : c = sep
    · subst hc
      simp [pySplitAux, List.takeWhile_cons]
    · have hb : (c == sep) = false := beq_eq_false_iff_ne.mpr hc
      rw [pySplitAux, if_neg hc, ih (c :: acc)]
      simp [List.takeWhile_cons, hb]

theorem pySplit_head {sep : Char} (s : Str) :
    (pySplit sep s).get? 0 = some (s.takeWhile (fun ch => !(ch == sep))) := by
  rw [get?_zero, pySplit, pySplitAux_head s []]; rfl

theorem pySplit_ne_nil {sep : Char} (s : Str) : pySplit sep s ≠ [] := by
  intro h
  have h2 := @pySplit_head sep s
  rw [h] at h2
  exact Option.noConfusion h2

theorem stripInv_pyStrip {s : Str} (h : stripInv s) : pyStrip s = s := by
  rw [pyStrip, h.1, h.2, List.reverse_reverse]

theorem pyStrip_cons_ws {c : Char} (s : Str) (hc : pyWs c = true) :
    pyStrip (c :: s) = pyStrip s := by
  rw [pyStrip, pyStrip, List.dropWhile_cons, hc]
  simp

theorem dropWhileRight_append_nl (u ti : Str)
    (hti : ti.reverse.dropWhile pyWs = ti.reverse) (hne : ti ≠ []) :
    ((u ++ ti ++ [nlChar]).reverse.dropWhile pyWs).reverse = u ++ ti := by
  have hnl : pyWs nlChar = true := by decide
  have hrev : ti.reverse ≠ [] := fun hr => hne (List.reverse_eq_nil_iff.mp hr)
  have hie : ti.reverse.isEmpty = false := by simp [List.isEmpty_iff, hrev]
  rw [List.append_assoc, List.reverse_append, List.reverse_append,
    List.reverse_singleton, List.singleton_append, List.cons_append,
    List.dropWhile_cons, hnl, if_pos rfl, List.dropWhile_append, hti, hie,
    if_neg Bool.false_ne_true, List.reverse_append, List.reverse_reverse,
    List.reverse_reverse]

theorem pyStrip_line_block (ch : Char) (x ti : Str) (hch : pyWs ch = false)
    (hti : ti.reverse.dropWhile pyWs = ti.reverse) (hne : ti ≠ []) :
    pyStrip ((ch :: x) ++ ti ++ [nlChar]) = (ch :: x) ++ ti := by
  rw [pyStrip]
  have h1 : (ch :: x) ++ ti ++ [nlChar] = ch :: (x ++ (ti ++ [nlChar])) := by simp
  rw [h1, List.dropWhile_cons, hch, if_neg Bool.false_ne_true, ← h1]
  exact dropWhileRight_append_nl (ch :: x) ti hti hne

theorem takeWhile_all {p : Char → Bool} {s : Str} (h : ∀ c ∈ s, p c = true) :
    s.takeWhile p = s := by
  induction s with
  | nil => rfl
  | cons c cs ih =>
    rw [List.takeWhile_cons, h c (List.mem_cons_self _ _)]
    simp only [if_true]
    rw [ih (fun x hx => h x (List.mem_cons_of_mem _ hx))]

theorem takeWhile_append_of_all {p : Char → Bool} {a : Str} (b : Str)
    (h : ∀ c ∈ a, p c = true) :
    (a ++ b).takeWhile p = a ++ b.takeWhile p := by
  induction a with
  | nil => rfl
  | cons c cs ih =>
    rw [List.cons_append, List.takeWhile_cons, h c (List.mem_cons_self _ _)]
    simp only [if_true]
    rw [ih (fun x hx => h x (List.mem_cons_of_mem _ hx))]
    simp

theorem pySplit_joinLines (ls : List Str) (hne : ls ≠ [])
    (h : ∀ l ∈ ls, nlChar ∉ l) :
    pySplit nlChar (joinLines ls) = ls := by
  induction ls with
  | nil => exact absurd rfl hne
  | cons l ls ih =>
    cases ls with
    | nil =>
      rw [joinLines, pySplit_not_mem (h l (List.mem_cons_self _ _))]
    | cons l2 ls2 =>
      have hih := ih (List.cons_ne_nil _ _) (fun x hx => h x (List.mem_cons_of_mem _ hx))
      rw [joinLines, pySplit_append _ (h l (List.mem_cons_self _ _)), hih]
      exact List.cons_ne_nil l2 ls2

theorem not_mem_append {x : Char} {u v : Str} (h1 : x ∉ u) (h2 : x ∉ v) :
    x ∉ u ++ v := fun hm => (List.mem_append.mp hm).elim h1 h2

theorem pyStrip_mkBody (d n c a le ti : Str)
    (hstrip : ti.reverse.dropWhile pyWs = ti.reverse) (hne : ti ≠ []) :
    pyStrip (mkBody d n c a le ti) =
      joinLines [("Description: ").data ++ d, ("Notes: ").data ++ n,
        ("Category: ").data ++ c, ("Assignment Date: ").data ++ a,
        ("----------").data, ("Please do not edit following lines!").data, le, ti] := by
  have hD : ("Description: ").data = ('D') :: ("escription: ").data := rfl
  have h1 : mkBody d n c a le ti =
      (('D') :: (("escription: ").data ++ d ++ [nlChar]
        ++ ("Notes: ").data ++ n ++ [nlChar]
        ++ ("Category: ").data ++ c ++ [nlChar]
        ++ ("Assignment Date: ").data ++ a ++ [nlChar]
        ++ ("----------").data ++ [nlChar]
        ++ ("Please do not edit following lines!").data ++ [nlChar]
        ++ le ++ [nlChar])) ++ ti ++ [nlChar] := by
    rw [mkBody, hD]
    simp [List.append_assoc]
  rw [h1, pyStrip_line_block _ _ _ (by decide) hstrip hne]
  simp [joinLines, hD, List.append_assoc]

theorem pySplit_mkBody (d n c a le ti : Str)
    (hd : nlChar ∉ d) (hn : nlChar ∉ n) (hc : nlChar ∉ c) (ha : nlChar ∉ a)
    (hle : nlChar ∉ le) (hti : nlChar ∉ ti)
    (hstrip : ti.reverse.dropWhile pyWs = ti.reverse) (hne : ti ≠ []) :
    pySplit nlChar (pyStrip (mkBody d n c a le ti)) =
      [("Description: ").data ++ d, ("Notes: ").data ++ n,
       ("Category: ").data ++ c, ("Assignment Date: ").data ++ a,
       ("----------").data, ("Please do not edit following lines!").data, le, ti] := by
  rw [pyStrip_mkBody d n c a le ti hstrip hne]
  refine pySplit_joinLines _ (by simp) ?_
  intro l hl
  simp only [List.mem_cons, List.not_mem_nil, or_false] at hl
  rcases hl with rfl | rfl | rfl | rfl | rfl | rfl | rfl | rfl
  · exact not_mem_append (by decide) hd
  · exact not_mem_append (by decide) hn
  · exact not_mem_append (by decide) hc
  · exact not_mem_append (by decide) ha
  · decide
  · decide
  · exact hle
  · exact hti

theorem labelled_line_get (lit v : Str) (hlit : colonChar ∉ lit) :
    (pySplit colonChar (lit ++ colonChar :: ((' ') :: v))).get? 1 =
      some ((' ') :: v.takeWhile notColon) := by
  rw [pySplit_append _ hlit, List.get?_cons_succ, pySplit_head, List.takeWhile_cons]
  have h2 : (!((' ') == colonChar)) = true := by decide
  rw [h2, if_pos rfl]
  rfl

theorem pyStrip_space_takeWhile (v : Str) :
    pyStrip ((' ') :: v.takeWhile notColon) = pyStrip (v.takeWhile notColon) :=
  pyStrip_cons_ws _ (by decide)

theorem pyNegIdx_eight_two (l0 l1 l2 l3 l4 l5 l6 l7 : Str) :
    pyNegIdx [l0, l1, l2, l3, l4, l5, l6, l7] 2 = some l6 := by
  simp [pyNegIdx]

theorem pyNegIdx_eight_one (l0 l1 l2 l3 l4 l5 l6 l7 : Str) :
    pyNegIdx [l0, l1, l2, l3, l4, l5, l6, l7] 1 = some l7 := by
  simp [pyNegIdx]

/-- Parsing an event whose description has the exact shape written by the
projector recovers the marker lines verbatim up to strip, and each labelled
field up to the cut at its first colon, provided no field value contains a
newline and the task id carries no trailing whitespace and is nonempty. -/
theorem parseEvent_mkBody (eid smry d n c a le ti endIso dd0 dd1 : Str) (rest : List Str)
    (hd : nlChar ∉ d) (hn : nlChar ∉ n) (hc : nlChar ∉ c) (ha : nlChar ∉ a)
    (hle : nlChar ∉ le) (hti : nlChar ∉ ti)
    (hstrip : ti.reverse.dropWhile pyWs = ti.reverse) (hne : ti ≠ [])
    (hEnd : pySplit tChar endIso = dd0 :: dd1 :: rest) :
    parseEvent { id := eid, summary := some smry,
                 description := some (mkBody d n c a le ti),
                 endDateTime := some endIso } =
      some { event_id := eid, subject := smry,
             description := pyStrip (d.takeWhile notColon),
             notes := pyStrip (n.takeWhile notColon),
             category := pyStrip (c.takeWhile notColon),
             assignment_date := pyStrip (a.takeWhile notColon),
             due_date := dd0, due_hour := dd1,
             last_edited_time := pyStrip le, task_id := pyStrip ti } := by
  have hlines := pySplit_mkBody d n c a le ti hd hn hc ha hle hti hstrip hne
  have hDl : ("Description: ").data ++ d =
      ("Description").data ++ colonChar :: ((' ') :: d) := rfl
  have hNl : ("Notes: ").data ++ n =
      ("Notes").data ++ colonChar :: ((' ') :: n) := rfl
  have hCl : ("Category: ").data ++ c =
      ("Category").data ++ colonChar :: ((' ') :: c) := rfl
  have hAl : ("Assignment Date: ").data ++ a =
      ("Assignment Date").data ++ colonChar :: ((' ') :: a) := rfl
  unfold parseEvent
  simp only [Option.bind_eq_bind', Option.some_bind]
  rw [hlines]
  simp only [List.get?_cons_succ, List.get?_cons_zero, Option.some_bind]
  rw [hDl, labelled_line_get _ _ (by decide),
    hNl, labelled_line_get _ _ (by decide),
    hCl, labelled_line_get _ _ (by decide),
    hAl, labelled_line_get _ _ (by decide), hEnd]
  simp only [Option.some_bind, List.get?_cons_succ, List.get?_cons_zero]
  rw [pyNegIdx_eight_two, pyNegIdx_eight_one]
  simp only [Option.some_bind]
  rw [pyStrip_space_takeWhile, pyStrip_space_takeWhile, pyStrip_space_takeWhile,
    pyStrip_space_takeWhile]

/-! ### Lemmas on dicts, action loops and the reconciliation engine -/

theorem dictInsert_fresh {α : Type} (d : List (Str × α)) (k : Str) (v : α)
    (h : k ∉ d.map Prod.fst) : dictInsert d k v = d ++ [(k, v)] := by
  unfold dictInsert
  rw [if_neg (fun hc => h (List.elem_iff.mp hc))]

theorem dictInsert_keys_replace {α : Type} (d : List (Str × α)) (k : Str) (v : α)
    (h : k ∈ d.map Prod.fst) :
    (dictInsert d k v).map Prod.fst = d.map Prod.fst := by
  unfold dictInsert
  rw [if_pos (List.elem_iff.mpr h), List.map_map]
  refine List.map_congr_left ?_
  intro p _
  by_cases hpk : p.1 = k
  · simp [hpk]
  · simp [hpk]

theorem dictInsert_keys_nodup {α : Type} (d : List (Str × α)) (k : Str) (v : α)
    (h : (d.map Prod.fst).Nodup) : ((dictInsert d k v).map Prod.fst).Nodup := by
  by_cases hk : k ∈ d.map Prod.fst
  · rw [dictInsert_keys_replace d k v hk]; exact h
  · rw [dictInsert_fresh d k v hk, List.map_append]
    simp [List.nodup_append, h, hk]

theorem dictGet?_mem_keys {α : Type} (d : List (Str × α)) (k : Str)
    (h : k ∈ d.map Prod.fst) : ∃ v, dictGet? d k = some v := by
  induction d with
  | nil => simp at h
  | cons p d ih =>
    unfold dictGet?
    by_cases hk : p.1 = k
    · refine ⟨p.2, ?_⟩
      rw [List.find?_cons_of_pos _ (by simpa using hk)]
      rfl
    · rw [List.find?_cons_of_neg _ (by simpa using hk)]
      have hmem : k ∈ d.map Prod.fst := by
        rcases List.mem_cons.mp h with h1 | h1
        · exact absurd h1.symm hk
        · exact h1
      exact ih hmem

theorem dictGet?_singleton {α : Type} (k : Str) (v : α) :
    dictGet? [(k, v)] k = some v := by
  unfold dictGet?
  rw [List.find?_cons_of_pos _ (by simp)]
  rfl

theorem runActions_nil (step : Str → Option (Option Str × List CalCall)) :
    runActions step [] = some ([], []) := rfl

theorem runStep_foldl_none_steps (step : Str → Option (Option Str × List CalCall))
    (ks : List Str) : ∀ (errs : List (Option Str)) (calls : List CalCall),
    (∀ k ∈ ks, step k = some (none, [])) →
    List.foldl (runStep step) (some (errs, calls)) ks
      = some (errs ++ List.replicate ks.length none, calls) := by
  induction ks with
  | nil => intro e c _; simp
  | cons k ks ih =>
    intro e c h
    have hk := h k (List.mem_cons_self _ _)
    have hstep : runStep step (some (e, c)) k = some (e ++ [none], c) := by
      simp [runStep, hk]
    rw [List.foldl_cons, hstep, ih _ _ (fun x hx => h x (List.mem_cons_of_mem _ hx))]
    simp [List.replicate_succ]

theorem runActions_none_steps (step : Str → Option (Option Str × List CalCall))
    (ks : List Str) (h : ∀ k ∈ ks, step k = some (none, [])) :
    runActions step ks = some (List.replicate ks.length none, []) := by
  rw [runActions, runStep_foldl_none_steps step ks [] [] h]
  simp

theorem mem_syncKeySets_create (T : List (Str × Task)) (E : List (Str × Event)) (k : Str) :
    k ∈ (syncKeySets T E).1 ↔ k ∈ T.map Prod.fst ∧ k ∉ E.map Prod.fst := by
  simp only [syncKeySets, List.mem_filter, Bool.not_eq_true', decide_eq_false_iff_not,
    dictKeys, List.mem_dedup]

theorem mem_syncKeySets_delete (T : List (Str × Task)) (E : List (Str × Event)) (k : Str) :
    k ∈ (syncKeySets T E).2.1 ↔ k ∈ E.map Prod.fst ∧ k ∉ T.map Prod.fst := by
  simp only [syncKeySets, List.mem_filter, Bool.not_eq_true', decide_eq_false_iff_not,
    dictKeys, List.mem_dedup]

theorem mem_syncKeySets_update (T : List (Str × Task)) (E : List (Str × Event)) (k : Str) :
    k ∈ (syncKeySets T E).2.2 ↔ k ∈ E.map Prod.fst ∧ k ∈ T.map Prod.fst := by
  simp only [syncKeySets, List.mem_filter, decide_eq_true_eq, dictKeys, List.mem_dedup]

theorem synchronize_tasks_eval (port : Port) (T : List (Str × Task))
    (E : List (Str × Event)) (cr dr ur : List (Option Str) × List CalCall)
    (h1 : runActions (fun k => (dictGet? T k).bind (fun t => to_create port t))
      (syncKeySets T E).1 = some cr)
    (h2 : runActions (fun k => (dictGet? E k).bind (fun e => to_delete port e))
      (syncKeySets T E).2.1 = some dr)
    (h3 : runActions (fun k => (dictGet? T k).bind (fun t =>
      (dictGet? E k).bind (fun e => may_update port t e))) (syncKeySets T E).2.2 = some ur) :
    synchronize_tasks port T E =
      some { task_ids := [(syncKeySets T E).1, (syncKeySets T E).2.1, (syncKeySets T E).2.2],
             errors := [cr.1, dr.1, ur.1], calls := cr.2 ++ dr.2 ++ ur.2 } := by
  unfold synchronize_tasks
  rw [h1, h2, h3]

theorem sync_task_ids (port : Port) (T : List (Str × Task)) (E : List (Str × Event))
    (res : SyncResult) (h : synchronize_tasks port T E = some res) :
    res.task_ids = [(syncKeySets T E).1, (syncKeySets T E).2.1, (syncKeySets T E).2.2] := by
  unfold synchronize_tasks at h
  split at h
  · injection h with h
    rw [← h]
  · exact Option.noConfusion h

theorem ptid_foldl_fst (rs : List RawRecord) :
    ∀ (m : List (Str × Task)) (e1 e2 : List RawRecord),
    (rs.foldl recordStep (m, e1)).1 = (rs.foldl recordStep (m, e2)).1 := by
  induction rs with
  | nil => intro m e1 e2; rfl
  | cons r rs ih =>
    intro m e1 e2
    rw [List.foldl_cons, List.foldl_cons]
    cases hs : r.status with
    | none =>
      simp only [recordStep, hs]
      exact ih m e1 e2
    | some st =>
      by_cases hst : st = ("Completed").data ∨ st = ("Closed").data ∨ st = ("Failed").data
      · simp only [recordStep, hs, if_pos hst]
        exact ih m e1 e2
      · cases hp : parseRecord r with
        | some t =>
          simp only [recordStep, hs, if_neg hst, hp]
          exact ih _ e1 e2
        | none =>
          simp only [recordStep, hs, if_neg hst, hp]
          exact ih m _ _

theorem ptid_foldl_err_mem (rs : List RawRecord) :
    ∀ (m : List (Str × Task)) (e : List RawRecord) (x : RawRecord),
    x ∈ e → x ∈ (rs.foldl recordStep (m, e)).2 := by
  induction rs with
  | nil => intro m e x hx; exact hx
  | cons r rs ih =>
    intro m e x hx
    rw [List.foldl_cons]
    cases hs : r.status with
    | none =>
      simp only [recordStep, hs]
      exact ih _ _ _ hx
    | some st =>
      by_cases hst : st = ("Completed").data ∨ st = ("Closed").data ∨ st = ("Failed").data
      · simp only [recordStep, hs, if_pos hst]
        exact ih _ _ _ hx
      · cases hp : parseRecord r with
        | some t =>
          simp only [recordStep, hs, if_neg hst, hp]
          exact ih _ _ _ hx
        | none =>
          simp only [recordStep, hs, if_neg hst, hp]
          exact ih _ _ _ (List.mem_append_left _ hx)

theorem notColon_true_of_ne {ch : Char} (h : ¬ ch = colonChar) : notColon ch = true := by
  simp [notColon, h]

theorem all_notColon {v : Str} (h : colonChar ∉ v) : ∀ ch ∈ v, notColon ch = true :=
  fun _ch hch => notColon_true_of_ne (fun he => h (he ▸ hch))

theorem takeWhile_notColon_of_not_mem {v : Str} (h : colonChar ∉ v) :
    v.takeWhile notColon = v := takeWhile_all (all_notColon h)

theorem task_to_event_some (endIso : Str) (t : Task) (c : Str)
    (hcat : t.category = Sum.inl c) :
    task_to_event endIso t =
      some { summary := t.name,
             description := mkBody t.description t.notes c
               (t.assignment_date ++ (" - ").data ++ t.assignment_hour)
               t.last_edited_time t.task_id,
             endDateTime := endIso } := by
  unfold task_to_event
  rw [hcat]
  rfl

theorem parseEvent_fields (e : RawEvent) (s b x : Str)
    (h1 : e.summary = some s) (h2 : e.description = some b)
    (h3 : e.endDateTime = some x) :
    parseEvent e = parseEvent { id := e.id, summary := some s,
                                description := some b, endDateTime := some x } := by
  unfold parseEvent
  rw [h1, h2, h3]

theorem parse_events_fold :
    ∀ (es : List RawEvent) (vs : List Event),
    List.Forall₂ (fun e v => parseEvent e = some v) es vs →
    (vs.map Event.task_id).Nodup →
    ∀ (d : List (Str × Event)) (errs : List RawEvent),
    (∀ v ∈ vs, v.task_id ∉ d.map Prod.fst) →
    es.foldl (fun acc elem => match parseEvent elem with
      | some tmp => (dictInsert acc.1 tmp.task_id tmp, acc.2)
      | none => (acc.1, acc.2 ++ [elem])) (d, errs)
      = (d ++ vs.map (fun v => (v.task_id, v)), errs) := by
  intro es vs h
  induction h with
  | nil =>
    intro _ d errs _
    simp
  | cons he htail ih =>
    rename_i e v es2 vs2
    intro hnd d errs hfresh
    rw [List.foldl_cons]
    simp only [he]
    rw [dictInsert_fresh d v.task_id v (hfresh v (List.mem_cons_self _ _))]
    rw [List.map_cons] at hnd
    have hndc := List.nodup_cons.mp hnd
    have hfresh2 : ∀ w ∈ vs2, w.task_id ∉ (d ++ [(v.task_id, v)]).map Prod.fst := by
      intro w hw
      rw [List.map_append]
      intro hmem
      rcases List.mem_append.mp hmem with hm | hm
      · exact hfresh w (List.mem_cons_of_mem _ hw) hm
      · have hwv : w.task_id = v.task_id := by simpa using hm
        exact hndc.1 (hwv ▸ List.mem_map_of_mem Event.task_id hw)
    rw [ih hndc.2 (d ++ [(v.task_id, v)]) errs hfresh2]
    simp

theorem parse_events_eq (es : List RawEvent) (vs : List Event)
    (h : List.Forall₂ (fun e v => parseEvent e = some v) es vs)
    (hnd : (vs.map Event.task_id).Nodup) :
    parse_events es = (vs.map (fun v => (v.task_id, v)), []) := by
  unfold parse_events
  rw [parse_events_fold es vs h hnd [] [] (by simp)]
  simp

theorem dictGet?_map_rel {T : List (Str × Task)} {vs : List Event}
    (h : List.Forall₂ (fun (p : Str × Task) (v : Event) =>
      v.task_id = p.1 ∧ v.last_edited_time = p.2.last_edited_time) T vs) :
    ∀ (k : Str) (t : Task), dictGet? T k = some t →
    ∃ v, dictGet? (vs.map (fun v => (v.task_id, v))) k = some v ∧
      v.last_edited_time = t.last_edited_time := by
  induction h with
  | nil =>
    intro k t ht
    exact Option.noConfusion ht
  | cons hpv htail ih =>
    rename_i p v T2 vs2
    intro k t ht
    by_cases hk : p.1 = k
    · unfold dictGet? at ht
      rw [List.find?_cons_of_pos _ (by simpa using hk)] at ht
      have hteq : p.2 = t := by simpa using ht
      refine ⟨v, ?_, ?_⟩
      · simp only [List.map_cons]
        unfold dictGet?
        rw [List.find?_cons_of_pos _ (by simp [hpv.1, hk])]
        rfl
      · rw [hpv.2, hteq]
    · unfold dictGet? at ht
      rw [List.find?_cons_of_neg _ (by simpa using hk)] at ht
      obtain ⟨w, hw1, hw2⟩ := ih k t ht
      refine ⟨w, ?_, hw2⟩
      simp only [List.map_cons]
      unfold dictGet?
      rw [List.find?_cons_of_neg _ (by simp [hpv.1, hk])]
      exact hw1

theorem forall₂_and_left {α β : Type} {R : α → β → Prop} {P : α → Prop} :
    ∀ {l₁ : List α} {l₂ : List β}, List.Forall₂ R l₁ l₂ → (∀ a ∈ l₁, P a) →
    List.Forall₂ (fun a b => P a ∧ R a b) l₁ l₂ := by
  intro l₁ l₂ h
  induction h with
  | nil => intro _; exact List.Forall₂.nil
  | cons hab htail ih =>
    intro hP
    exact List.Forall₂.cons ⟨hP _ (List.mem_cons_self _ _), hab⟩
      (ih (fun a ha => hP a (List.mem_cons_of_mem _ ha)))

theorem forall₂_tid_map {T : List (Str × Task)} {vs : List Event}
    (h : List.Forall₂ (fun (p : Str × Task) (v : Event) =>
      v.task_id = p.1 ∧ v.last_edited_time = p.2.last_edited_time) T vs) :
    vs.map Event.task_id = T.map Prod.fst := by
  induction h with
  | nil => rfl
  | cons hpv htail ih => simp [hpv.1, ih]

theorem exists_parsed_events (port : Port) {T : List (Str × Task)} {es : List RawEvent}
    (hcomb : List.Forall₂ (fun (p : Str × Task) (e : RawEvent) =>
      (p.1 = p.2.task_id ∧ CleanTask p.2 ∧
        2 ≤ (pySplit tChar (port.endIso p.2)).length) ∧
      (∃ pay, task_to_event (port.endIso p.2) p.2 = some pay ∧
        e.summary = some pay.summary ∧ e.description = some pay.description ∧
        e.endDateTime = some pay.endDateTime)) T es) :
    ∃ vs : List Event,
      List.Forall₂ (fun e v => parseEvent e = some v) es vs ∧
      List.Forall₂ (fun (p : Str × Task) (v : Event) =>
        v.task_id = p.1 ∧ v.last_edited_time = p.2.last_edited_time) T vs := by
  induction hcomb with
  | nil => exact ⟨[], List.Forall₂.nil, List.Forall₂.nil⟩
  | cons hpe htail ih =>
    rename_i p e T2 es2
    obtain ⟨⟨hk, hcl, hiso⟩, pay, hpay, hsum, hdesc, hend⟩ := hpe
    obtain ⟨vs2, hv1, hv2⟩ := ih
    obtain ⟨hdnl, hnnl, hcatex, hadnl, hahnl, hlenl, hlesi, htinl, htisi, htine⟩ := hcl
    obtain ⟨c, hcat, hcnl⟩ := hcatex
    rw [task_to_event_some (port.endIso p.2) p.2 c hcat] at hpay
    have hpayeq := (Option.some.inj hpay).symm
    obtain ⟨dd0, dd1, rest, hEnd⟩ : ∃ dd0 dd1 rest,
        pySplit tChar (port.endIso p.2) = dd0 :: dd1 :: rest := by
      rcases hsplit : pySplit tChar (port.endIso p.2) with _ | ⟨x, tl⟩
      · rw [hsplit] at hiso; simp at hiso
      · rcases tl with _ | ⟨y, r⟩
        · rw [hsplit] at hiso; simp at hiso
        · exact ⟨x, y, r, rfl⟩
    have hsum2 : e.summary = some p.2.name := hsum.trans (by rw [hpayeq])
    have hdesc2 : e.description = some (mkBody p.2.description p.2.notes c
        (p.2.assignment_date ++ (" - ").data ++ p.2.assignment_hour)
        p.2.last_edited_time p.2.task_id) := hdesc.trans (by rw [hpayeq])
    have hend2 : e.endDateTime = some (port.endIso p.2) := hend.trans (by rw [hpayeq])
    have hanl : nlChar ∉ p.2.assignment_date ++ (" - ").data ++ p.2.assignment_hour :=
      not_mem_append (not_mem_append hadnl (by decide)) hahnl
    refine ⟨{ event_id := e.id, subject := p.2.name,
              description := pyStrip (p.2.description.takeWhile notColon),
              notes := pyStrip (p.2.notes.takeWhile notColon),
              category := pyStrip (c.takeWhile notColon),
              assignment_date := pyStrip ((p.2.assignment_date ++ (" - ").data
                ++ p.2.assignment_hour).takeWhile notColon),
              due_date := dd0, due_hour := dd1,
              last_edited_time := pyStrip p.2.last_edited_time,
              task_id := pyStrip p.2.task_id } :: vs2,
            List.Forall₂.cons ?_ hv1, List.Forall₂.cons ⟨?_, ?_⟩ hv2⟩
    · rw [parseEvent_fields e p.2.name (mkBody p.2.description p.2.notes c
        (p.2.assignment_date ++ (" - ").data ++ p.2.assignment_hour)
        p.2.last_edited_time p.2.task_id) (port.endIso p.2) hsum2 hdesc2 hend2]
      exact parseEvent_mkBody e.id p.2.name p.2.description p.2.notes c
        (p.2.assignment_date ++ (" - ").data ++ p.2.assignment_hour)
        p.2.last_edited_time p.2.task_id (port.endIso p.2) dd0 dd1 rest
        hdnl hnnl hcnl hanl hlenl htinl htisi.2 htine hEnd
    · rw [stripInv_pyStrip htisi]
      exact hk.symm
    · rw [stripInv_pyStrip hlesi]

/-! ### Claims -/

/-- C1: the three key sets returned by synchronize_tasks are the difference
of task keys and event keys, the reverse difference, and the intersection;
they are pairwise disjoint and their union is the union of the task keys and
the event keys, so every key falls in exactly one category. -/
theorem C1_partition (port : Port) (T : List (Str × Task)) (E : List (Str × Event))
    (res : SyncResult) (h : synchronize_tasks port T E = some res) :
    res.task_ids = [(syncKeySets T E).1, (syncKeySets T E).2.1, (syncKeySets T E).2.2] ∧
    (syncKeySets T E).1.toFinset
      = (T.map Prod.fst).toFinset \ (E.map Prod.fst).toFinset ∧
    (syncKeySets T E).2.1.toFinset
      = (E.map Prod.fst).toFinset \ (T.map Prod.fst).toFinset ∧
    (syncKeySets T E).2.2.toFinset
      = (T.map Prod.fst).toFinset ∩ (E.map Prod.fst).toFinset ∧
    Disjoint (syncKeySets T E).1.toFinset (syncKeySets T E).2.1.toFinset ∧
    Disjoint (syncKeySets T E).1.toFinset (syncKeySets T E).2.2.toFinset ∧
    Disjoint (syncKeySets T E).2.1.toFinset (syncKeySets T E).2.2.toFinset ∧
    ((syncKeySets T E).1.toFinset ∪ (syncKeySets T E).2.1.toFinset
        ∪ (syncKeySets T E).2.2.toFinset)
      = (T.map Prod.fst).toFinset ∪ (E.map Prod.fst).toFinset := by
  refine ⟨sync_task_ids port T E res h, ?_, ?_, ?_, ?_, ?_, ?_, ?_⟩
  · ext x
    simp only [List.mem_toFinset, Finset.mem_sdiff, mem_syncKeySets_create]
  · ext x
    simp only [List.mem_toFinset, Finset.mem_sdiff, mem_syncKeySets_delete]
  · ext x
    simp only [List.mem_toFinset, Finset.mem_inter, mem_syncKeySets_update]
    tauto
  · rw [Finset.disjoint_left]
    intro x h1 h2
    rw [List.mem_toFinset, mem_syncKeySets_create] at h1
    rw [List.mem_toFinset, mem_syncKeySets_delete] at h2
    exact h2.2 h1.1
  · rw [Finset.disjoint_left]
    intro x h1 h2
    rw [List.mem_toFinset, mem_syncKeySets_create] at h1
    rw [List.mem_toFinset, mem_syncKeySets_update] at h2
    exact h1.2 h2.1
  · rw [Finset.disjoint_left]
    intro x h1 h2
    rw [List.mem_toFinset, mem_syncKeySets_delete] at h1
    rw [List.mem_toFinset, mem_syncKeySets_update] at h2
    exact h1.2 h2.2
  · ext x
    simp only [Finset.mem_union, List.mem_toFinset, mem_syncKeySets_create,
      mem_syncKeySets_delete, mem_syncKeySets_update]
    by_cases hT : x ∈ T.map Prod.fst <;> by_cases hE : x ∈ E.map Prod.fst <;>
      simp [hT, hE]

/-- Witness for C1 on a concrete one task dict and a disjoint one event
dict. -/
theorem C1_witness :
    resTA.task_ids = [(syncKeySets dictTA dictEB).1, (syncKeySets dictTA dictEB).2.1,
      (syncKeySets dictTA dictEB).2.2] ∧
    (syncKeySets dictTA dictEB).1.toFinset
      = (dictTA.map Prod.fst).toFinset \ (dictEB.map Prod.fst).toFinset ∧
    (syncKeySets dictTA dictEB).2.1.toFinset
      = (dictEB.map Prod.fst).toFinset \ (dictTA.map Prod.fst).toFinset ∧
    (syncKeySets dictTA dictEB).2.2.toFinset
      = (dictTA.map Prod.fst).toFinset ∩ (dictEB.map Prod.fst).toFinset ∧
    Disjoint (syncKeySets dictTA dictEB).1.toFinset (syncKeySets dictTA dictEB).2.1.toFinset ∧
    Disjoint (syncKeySets dictTA dictEB).1.toFinset (syncKeySets dictTA dictEB).2.2.toFinset ∧
    Disjoint (syncKeySets dictTA dictEB).2.1.toFinset (syncKeySets dictTA dictEB).2.2.toFinset ∧
    ((syncKeySets dictTA dictEB).1.toFinset ∪ (syncKeySets dictTA dictEB).2.1.toFinset
        ∪ (syncKeySets dictTA dictEB).2.2.toFinset)
      = (dictTA.map Prod.fst).toFinset ∪ (dictEB.map Prod.fst).toFinset :=
  C1_partition port0 dictTA dictEB resTA (by decide)

/-- C4: for a key in both mappings, change detection is exact string
equality of last_edited_time: equal markers issue no calendar write, and
different markers issue exactly one update carrying the stored event id of
the Event whenever the category is a string; for the empty tag list sentinel
of source line 214 the projection raises instead and no update call is
issued, evaluated at a concrete failing input. -/
theorem C4_change_detection :
    (∀ (port : Port) (t : Task) (ev : Event),
      t.last_edited_time = ev.last_edited_time →
      may_update port t ev = some (none, [])) ∧
    (∀ (port : Port) (t : Task) (ev : Event) (c : Str),
      t.last_edited_time ≠ ev.last_edited_time → t.category = Sum.inl c →
      ∃ body, task_to_event (port.endIso t) t = some body ∧
        may_update port t ev =
          some (port.result (CalCall.update ev.event_id body),
            [CalCall.update ev.event_id body])) ∧
    may_update port0 tBad ev0 = none := by
  refine ⟨?_, ?_, by decide⟩
  · intro port t ev h
    rw [may_update, if_neg (fun hne => hne h)]
  · intro port t ev c hne hcat
    have hproj : task_to_event (port.endIso t) t =
        some { summary := t.name,
               description := mkBody t.description t.notes c
                 (t.assignment_date ++ (" - ").data ++ t.assignment_hour)
                 t.last_edited_time t.task_id,
               endDateTime := port.endIso t } := by
      unfold task_to_event
      rw [hcat]
      rfl
    refine ⟨_, hproj, ?_⟩
    rw [may_update, if_pos hne, hproj]
    rfl

/-- Witness for C4: the equal marker case issues nothing and the changed
marker case issues one update with the stored event id. -/
theorem C4_witness :
    may_update port0 t0 ev0 = some (none, []) ∧
    may_update port0 t1 ev0 = some (none, [CalCall.update (("ev1").data) pay1]) := by
  constructor
  · exact C4_change_detection.1 port0 t0 ev0 rfl
  · obtain ⟨body, hb, hm⟩ :=
      C4_change_detection.2.1 port0 t1 ev0 (("c").data) (by decide) rfl
    have h2 : task_to_event (port0.endIso t1) t1 = some pay1 := by decide
    rw [h2] at hb
    rw [(Option.some.inj hb).symm] at hm
    exact hm.trans (by decide)

/-- C5 counterexample: a description line value containing a colon is cut at
that colon by the parser, only the piece before it survives, refuting the
claim that the full right hand side after the first colon is recovered. -/
theorem C5_counterexample :
    (parseEvent rawColonEvent).map Event.description = some (("a").data) ∧
    some (("a").data) ≠ some (("a:b").data) := by
  exact ⟨by decide, by decide⟩

/-- C5 amended: each labelled line is split at every colon; the parser keeps
the piece between the first and second colons, trimmed, so a value holding a
colon is truncated at its first colon. -/
theorem C5_label_split (eid smry d n c a le ti endIso dd0 dd1 : Str) (rest : List Str)
    (hd : nlChar ∉ d) (hn : nlChar ∉ n) (hc : nlChar ∉ c) (ha : nlChar ∉ a)
    (hle : nlChar ∉ le) (hti : nlChar ∉ ti)
    (hstrip : ti.reverse.dropWhile pyWs = ti.reverse) (hne : ti ≠ [])
    (hEnd : pySplit tChar endIso = dd0 :: dd1 :: rest) :
    (parseEvent { id := eid, summary := some smry,
                  description := some (mkBody d n c a le ti),
                  endDateTime := some endIso }).map Event.description
      = some (pyStrip (d.takeWhile notColon)) ∧
    (parseEvent { id := eid, summary := some smry,
                  description := some (mkBody d n c a le ti),
                  endDateTime := some endIso }).map Event.notes
      = some (pyStrip (n.takeWhile notColon)) ∧
    (parseEvent { id := eid, summary := some smry,
                  description := some (mkBody d n c a le ti),
                  endDateTime := some endIso }).map Event.category
      = some (pyStrip (c.takeWhile notColon)) ∧
    (parseEvent { id := eid, summary := some smry,
                  description := some (mkBody d n c a le ti),
                  endDateTime := some endIso }).map Event.assignment_date
      = some (pyStrip (a.takeWhile notColon)) := by
  rw [parseEvent_mkBody eid smry d n c a le ti endIso dd0 dd1 rest
    hd hn hc ha hle hti hstrip hne hEnd]
  exact ⟨rfl, rfl, rfl, rfl⟩

/-- Witness for C5 amended at a colon bearing description value. -/
theorem C5_witness :
    (parseEvent { id := ("e5").data, summary := some (("s5").data),
                  description := some (mkBody (("a:b").data) (("n").data) (("c").data)
                    (("ad").data) (("t9").data) (("id9").data)),
                  endDateTime := some (("2024-01-01T00:00:00Z").data) }).map Event.description
      = some (("a").data) :=
  (C5_label_split (("e5").data) (("s5").data) (("a:b").data) (("n").data)
    (("c").data) (("ad").data) (("t9").data) (("id9").data)
    (("2024-01-01T00:00:00Z").data) (("2024-01-01").data) (("00:00:00Z").data) []
    (by decide) (by decide) (by decide) (by decide) (by decide) (by decide)
    (by decide) (by decide) (by decide)).1.trans (by decide)

/-- C6 counterexample: a single key present on both sides with equal markers
still appends one slot, holding None, to the update error list, refuting the
claim that no slot is produced for such a key. -/
theorem C6_counterexample :
    synchronize_tasks port0 [((("abc").data), t0)] [((("abc").data), ev0)]
      = some { task_ids := [[], [], [("abc").data]],
               errors := [[], [], [none]], calls := [] } ∧
    ([none] : List (Option Str)) ≠ [] := by
  exact ⟨by decide, by decide⟩

/-- C6 amended: for a key whose Task and Event markers are string equal the
engine performs no action and issues no call, but one slot holding None is
still appended to the update error list for that key. -/
theorem C6_no_action_still_slot (port : Port) (k : Str) (t : Task) (ev : Event)
    (h : t.last_edited_time = ev.last_edited_time) :
    may_update port t ev = some (none, []) ∧
    synchronize_tasks port [(k, t)] [(k, ev)]
      = some { task_ids := [[], [], [k]], errors := [[], [], [none]], calls := [] } := by
  have hmu : may_update port t ev = some (none, []) := by
    rw [may_update, if_neg (fun hne => hne h)]
  refine ⟨hmu, ?_⟩
  have hsets : syncKeySets [(k, t)] [(k, ev)] = ([], [], [k]) := by
    simp [syncKeySets, dictKeys]
  have hstep : (dictGet? [(k, t)] k).bind (fun tt =>
      (dictGet? [(k, ev)] k).bind (fun ee => may_update port tt ee)) = some (none, []) := by
    rw [dictGet?_singleton, dictGet?_singleton]
    simp only [Option.some_bind]
    exact hmu
  have h3 : runActions (fun key => (dictGet? [(k, t)] key).bind (fun tt =>
      (dictGet? [(k, ev)] key).bind (fun ee => may_update port tt ee))) [k]
      = some ([none], []) := by
    have := runActions_none_steps (fun key => (dictGet? [(k, t)] key).bind (fun tt =>
      (dictGet? [(k, ev)] key).bind (fun ee => may_update port tt ee))) [k]
      (by intro x hx; rw [List.mem_singleton.mp hx]; exact hstep)
    simpa using this
  have heval := synchronize_tasks_eval port [(k, t)] [(k, ev)] ([], []) ([], [])
    ([none], [])
    (by rw [hsets]; rfl) (by rw [hsets]; rfl) (by rw [hsets]; exact h3)
  rw [heval, hsets]
  rfl

/-- Witness for C6 amended at the concrete equal marker pair. -/
theorem C6_witness :
    may_update port0 t0 ev0 = some (none, []) ∧
    synchronize_tasks port0 [((("abc").data), t0)] [((("abc").data), ev0)]
      = some { task_ids := [[], [], [("abc").data]],
               errors := [[], [], [none]], calls := [] } :=
  C6_no_action_still_slot port0 (("abc").data) t0 ev0 rfl

/-- C7: a record whose status reads Completed, Closed or Failed contributes
nothing to parse_tasks_in_database: removing it from the raw input changes
neither the parsed mapping nor the error list, so such a task never appears
among the parsed tasks. -/
theorem C7_closed_status_excluded (rs1 rs2 : List RawRecord) (r : RawRecord)
    (h : r.status = some (("Completed").data) ∨ r.status = some (("Closed").data)
      ∨ r.status = some (("Failed").data)) :
    parse_tasks_in_database (rs1 ++ r :: rs2) = parse_tasks_in_database (rs1 ++ rs2) := by
  unfold parse_tasks_in_database
  rw [List.foldl_append, List.foldl_append, List.foldl_cons]
  congr 1
  rcases h with h | h | h <;> simp [recordStep, h]

/-- Witness for C7 on a concrete Completed record. -/
theorem C7_witness :
    parse_tasks_in_database ([] ++ record7 :: []) = parse_tasks_in_database ([] ++ []) :=
  C7_closed_status_excluded [] [] record7 (Or.inl rfl)

/-- C8: on a record with tags the category is the comma joined string, but
on a record with the empty tag list source line 214 stores the Python list
holding the sentinel, not the sentinel string the claim asserts. -/
theorem C8_category_sentinel_is_list :
    (parseRecord record0).map Task.category = some (Sum.inl (("a, b").data)) ∧
    (parseRecord record8).map Task.category
      = some (Sum.inr [("Not categorized!").data]) ∧
    (Sum.inr [("Not categorized!").data] : Str ⊕ List Str)
      ≠ Sum.inl (("Not categorized!").data) := by
  exact ⟨by decide, by decide, by decide⟩

/-- C9: parse_events keys its output by decoded task id, so the key list is
always nodup, and of two events decoding to the same task id the later one
is kept: the pair parses to the single entry of the second event with an
empty error list, the dropped duplicate recorded nowhere. -/
theorem C9_last_duplicate_wins :
    (∀ es : List RawEvent, ((parse_events es).1.map Prod.fst).Nodup) ∧
    (∀ (e1 e2 : RawEvent) (v1 v2 : Event),
      parseEvent e1 = some v1 → parseEvent e2 = some v2 →
      v1.task_id = v2.task_id →
      parse_events [e1, e2] = ([(v2.task_id, v2)], [])) := by
  constructor
  · have hfold : ∀ (es : List RawEvent) (acc : List (Str × Event) × List RawEvent),
        (acc.1.map Prod.fst).Nodup →
        (((es.foldl (fun acc elem => match parseEvent elem with
          | some tmp => (dictInsert acc.1 tmp.task_id tmp, acc.2)
          | none => (acc.1, acc.2 ++ [elem])) acc).1.map Prod.fst).Nodup) := by
      intro es
      induction es with
      | nil => intro acc h; exact h
      | cons e es ih =>
        intro acc h
        rw [List.foldl_cons]
        cases hp : parseEvent e with
        | none =>
          simp only [hp]
          exact ih _ h
        | some v =>
          simp only [hp]
          exact ih _ (dictInsert_keys_nodup _ _ _ h)
    intro es
    exact hfold es ([], []) (by simp)
  · intro e1 e2 v1 v2 h1 h2 htid
    unfold parse_events
    simp only [List.foldl_cons, List.foldl_nil, h1, h2]
    rw [show dictInsert ([] : List (Str × Event)) v1.task_id v1 = [(v1.task_id, v1)]
      from rfl]
    rw [htid]
    have hrepl : dictInsert [(v2.task_id, v1)] v2.task_id v2 = [(v2.task_id, v2)] := by
      simp [dictInsert]
    rw [hrepl]

/-- Witness for C9 on two concrete events decoding to the same task id. -/
theorem C9_witness :
    ((parse_events [rawEvA]).1.map Prod.fst).Nodup ∧
    parse_events [rawEvA, rawEvB] = ([((("id1").data), evB)], []) := by
  constructor
  · exact C9_last_duplicate_wins.1 [rawEvA]
  · exact C9_last_duplicate_wins.2 rawEvA rawEvB evA evB (by decide) (by decide) rfl

/-- C2 counterexample: the assignment date does not round trip: projecting
the task t0 and decoding the payload yields the date, a dash and the hour
piece before its first colon, not the original assignment date. -/
theorem C2_counterexample :
    (task_to_event (port0.endIso t0) t0).bind
        (fun pay => (parseEvent (payloadToRaw (("ev1").data) pay)).map
          Event.assignment_date)
      = some (("2024-05-01 - 00").data) ∧
    some (("2024-05-01 - 00").data) ≠ some t0.assignment_date := by
  exact ⟨by decide, by decide⟩

/-- C2 amended: for a task whose category is a string and whose description,
notes and category are colon free, newline free and strip invariant, whose
marker fields are newline free, strip invariant and nonempty, and whose
assignment date is colon and newline free, the round trip through the
projector and the event parser recovers task_id, last_edited_time,
description, notes and category; assignment_date is not recovered: it
decodes to the date, a spaced dash and the hour truncated at its first
colon. -/
theorem C2_roundtrip (t : Task) (cat eid endIso dd0 dd1 : Str) (rest : List Str)
    (pay : EventPayload)
    (hcat : t.category = Sum.inl cat)
    (hpay : task_to_event endIso t = some pay)
    (hd1 : nlChar ∉ t.description) (hd2 : colonChar ∉ t.description)
    (hd3 : stripInv t.description)
    (hn1 : nlChar ∉ t.notes) (hn2 : colonChar ∉ t.notes) (hn3 : stripInv t.notes)
    (hc1 : nlChar ∉ cat) (hc2 : colonChar ∉ cat) (hc3 : stripInv cat)
    (ha1 : nlChar ∉ t.assignment_date) (ha2 : colonChar ∉ t.assignment_date)
    (hh1 : nlChar ∉ t.assignment_hour)
    (hl1 : nlChar ∉ t.last_edited_time) (hl2 : stripInv t.last_edited_time)
    (ht1 : nlChar ∉ t.task_id) (ht2 : stripInv t.task_id) (ht3 : t.task_id ≠ [])
    (hEnd : pySplit tChar endIso = dd0 :: dd1 :: rest) :
    (parseEvent (payloadToRaw eid pay)).map Event.task_id = some t.task_id ∧
    (parseEvent (payloadToRaw eid pay)).map Event.last_edited_time
      = some t.last_edited_time ∧
    (parseEvent (payloadToRaw eid pay)).map Event.description = some t.description ∧
    (parseEvent (payloadToRaw eid pay)).map Event.notes = some t.notes ∧
    (parseEvent (payloadToRaw eid pay)).map Event.category = some cat ∧
    (parseEvent (payloadToRaw eid pay)).map Event.assignment_date
      = some (pyStrip (t.assignment_date ++ (" - ").data
          ++ t.assignment_hour.takeWhile notColon)) := by
  rw [task_to_event_some endIso t cat hcat] at hpay
  have hpayeq := (Option.some.inj hpay).symm
  subst hpayeq
  have hanl : nlChar ∉ t.assignment_date ++ (" - ").data ++ t.assignment_hour :=
    not_mem_append (not_mem_append ha1 (by decide)) hh1
  have hpr : payloadToRaw eid
      { summary := t.name,
        description := mkBody t.description t.notes cat
          (t.assignment_date ++ (" - ").data ++ t.assignment_hour)
          t.last_edited_time t.task_id,
        endDateTime := endIso }
      = { id := eid, summary := some t.name,
          description := some (mkBody t.description t.notes cat
            (t.assignment_date ++ (" - ").data ++ t.assignment_hour)
            t.last_edited_time t.task_id),
          endDateTime := some endIso } := rfl
  rw [hpr, parseEvent_mkBody eid t.name t.description t.notes cat
    (t.assignment_date ++ (" - ").data ++ t.assignment_hour)
    t.last_edited_time t.task_id endIso dd0 dd1 rest
    hd1 hn1 hc1 hanl hl1 ht1 ht2.2 ht3 hEnd]
  have hall : ∀ ch ∈ t.assignment_date ++ (" - ").data, notColon ch = true :=
    fun ch hch => (List.mem_append.mp hch).elim (all_notColon ha2 ch)
      (all_notColon (by decide) ch)
  refine ⟨?_, ?_, ?_, ?_, ?_, ?_⟩
  · rw [Option.map_some']
    rw [stripInv_pyStrip ht2]
  · rw [Option.map_some']
    rw [stripInv_pyStrip hl2]
  · rw [Option.map_some']
    rw [takeWhile_notColon_of_not_mem hd2, stripInv_pyStrip hd3]
  · rw [Option.map_some']
    rw [takeWhile_notColon_of_not_mem hn2, stripInv_pyStrip hn3]
  · rw [Option.map_some']
    rw [takeWhile_notColon_of_not_mem hc2, stripInv_pyStrip hc3]
  · rw [Option.map_some']
    rw [takeWhile_append_of_all _ hall]

/-- Witness for C2 amended at the concrete clean task t0. -/
theorem C2_witness :
    (parseEvent (payloadToRaw (("ev1").data) pay0)).map Event.task_id
      = some t0.task_id ∧
    (parseEvent (payloadToRaw (("ev1").data) pay0)).map Event.last_edited_time
      = some t0.last_edited_time ∧
    (parseEvent (payloadToRaw (("ev1").data) pay0)).map Event.description
      = some t0.description ∧
    (parseEvent (payloadToRaw (("ev1").data) pay0)).map Event.notes
      = some t0.notes ∧
    (parseEvent (payloadToRaw (("ev1").data) pay0)).map Event.category
      = some (("c").data) ∧
    (parseEvent (payloadToRaw (("ev1").data) pay0)).map Event.assignment_date
      = some (pyStrip (t0.assignment_date ++ (" - ").data
          ++ t0.assignment_hour.takeWhile notColon)) :=
  C2_roundtrip t0 (("c").data) (("ev1").data) (("2024-05-01T12:30:00+00:00").data)
    (("2024-05-01").data) (("12:30:00+00:00").data) [] pay0 rfl (by decide)
    (by decide) (by decide) (by decide) (by decide) (by decide) (by decide)
    (by decide) (by decide) (by decide) (by decide) (by decide) (by decide)
    (by decide) (by decide) (by decide) (by decide) (by decide) (by decide)

/-- C3 counterexample: a task whose description embeds a newline with a
colon free continuation line projects, in the first run, to a payload whose
decode fails on the second run; the event is dropped from the managed set,
the task key lands in to_create, and a duplicate create call is issued, so
the second run is not action free as the claim states. -/
theorem C3_counterexample :
    task_to_event (port0.endIso tNl) tNl = some payNl ∧
    parse_events [payloadToRaw (("ev1").data) payNl]
      = ([], [payloadToRaw (("ev1").data) payNl]) ∧
    synchronize_tasks port0 [((("abc").data), tNl)]
        (parse_events [payloadToRaw (("ev1").data) payNl]).1
      = some { task_ids := [[("abc").data], [], []],
               errors := [[none], [], []],
               calls := [CalCall.insert payNl] } ∧
    [("abc").data] ≠ ([] : List Str) := by
  exact ⟨by decide, by decide, by decide, by decide⟩

/-- C3 amended: for tasks whose text fields survive the wire format, in the
sense of CleanTask (no field embeds a newline, the category is a string, the
marker fields carry no surrounding whitespace and the task id is nonempty),
and whose rendered end instant contains a T as every isoformat timestamp
does, running reconciliation on the calendar state left by a first run that
projected exactly those tasks yields an empty to_create set, an empty
to_delete set, a may_update set holding every task key, no calendar call at
all, and one None slot per key in the update error list, because every
decoded marker string equals the matching task marker. -/
theorem C3_idempotent (port : Port) (T : List (Str × Task)) (es : List RawEvent)
    (hnd : (T.map Prod.fst).Nodup)
    (hkey : ∀ p ∈ T, p.1 = p.2.task_id)
    (hclean : ∀ p ∈ T, CleanTask p.2)
    (hiso : ∀ p ∈ T, 2 ≤ (pySplit tChar (port.endIso p.2)).length)
    (hes : List.Forall₂ (fun (p : Str × Task) (e : RawEvent) => ∃ pay,
      task_to_event (port.endIso p.2) p.2 = some pay ∧
      e.summary = some pay.summary ∧ e.description = some pay.description ∧
      e.endDateTime = some pay.endDateTime) T es) :
    synchronize_tasks port T (parse_events es).1 =
      some { task_ids := [[], [], dictKeys T],
             errors := [[], [], List.replicate (dictKeys T).length none],
             calls := [] } := by
  have hP : ∀ p ∈ T, p.1 = p.2.task_id ∧ CleanTask p.2 ∧
      2 ≤ (pySplit tChar (port.endIso p.2)).length :=
    fun p hp => ⟨hkey p hp, hclean p hp, hiso p hp⟩
  obtain ⟨vs, hv1, hv2⟩ := exists_parsed_events port (forall₂_and_left hes hP)
  have htid : vs.map Event.task_id = T.map Prod.fst := forall₂_tid_map hv2
  have hndvs : (vs.map Event.task_id).Nodup := by rw [htid]; exact hnd
  have hpe : parse_events es = (vs.map (fun v => (v.task_id, v)), []) :=
    parse_events_eq es vs hv1 hndvs
  rw [hpe]
  have hkeysE : dictKeys (vs.map (fun v => (v.task_id, v))) = dictKeys T := by
    unfold dictKeys
    rw [List.map_map,
      show (Prod.fst ∘ fun v : Event => (v.task_id, v)) = Event.task_id from rfl,
      htid]
  have hfilter1 : (dictKeys T).filter (fun k => !(decide (k ∈ dictKeys T))) = [] :=
    List.filter_eq_nil_iff.mpr (fun a ha => by simp [ha])
  have hfilter2 : (dictKeys T).filter (fun k => decide (k ∈ dictKeys T)) = dictKeys T :=
    List.filter_eq_self.mpr (fun a ha => by simp [ha])
  have hsets : syncKeySets T (vs.map (fun v => (v.task_id, v))) = ([], [], dictKeys T) := by
    simp only [syncKeySets]
    rw [hkeysE, hfilter1, hfilter2]
  have hstep : ∀ k ∈ dictKeys T,
      (dictGet? T k).bind (fun t => (dictGet? (vs.map (fun v => (v.task_id, v))) k).bind
        (fun e => may_update port t e)) = some (none, []) := by
    intro k hk
    have hkmem : k ∈ T.map Prod.fst := List.mem_dedup.mp hk
    obtain ⟨t, ht⟩ := dictGet?_mem_keys T k hkmem
    obtain ⟨v, hvget, hvlast⟩ := dictGet?_map_rel hv2 k t ht
    rw [ht, hvget]
    simp only [Option.some_bind]
    rw [may_update, if_neg (fun hne => hne hvlast.symm)]
  have hupd := runActions_none_steps _ (dictKeys T) hstep
  exact (synchronize_tasks_eval port T (vs.map (fun v => (v.task_id, v)))
    ([], []) ([], []) (List.replicate (dictKeys T).length none, [])
    (by rw [hsets]; rfl) (by rw [hsets]; rfl) (by rw [hsets]; exact hupd)).trans
    (by rw [hsets])

/-- Witness for C3 on the one task dict and the calendar state holding its
projected payload. -/
theorem C3_witness :
    synchronize_tasks port0 [((("abc").data), t0)]
        (parse_events [payloadToRaw (("ev1").data) pay0]).1
      = some { task_ids := [[], [], [("abc").data]],
               errors := [[], [], [none]], calls := [] } := by
  have h := C3_idempotent port0 [((("abc").data), t0)]
    [payloadToRaw (("ev1").data) pay0]
    (by decide)
    (by decide)
    (by
      intro p hp
      rw [List.mem_singleton.mp hp]
      exact ⟨by decide, by decide, ⟨("c").data, rfl, by decide⟩, by decide, by decide,
        by decide, by decide, by decide, by decide, by decide⟩)
    (by decide)
    (List.Forall₂.cons ⟨pay0, by decide, rfl, rfl, rfl⟩ List.Forall₂.nil)
  exact h.trans (by decide)

/-- C10: with the Assignment Date date object null or its start value null,
the always true comparison with the NoneType class admits the record and the
following attribute access raises inside the try block: the record goes to
the error list, never to the parsed mapping, and the branch assigning the
missing date sentinel is never taken. -/
theorem C10_null_assignment_errors (rs1 rs2 : List RawRecord) (elem : RawRecord)
    (st : Str) (hst : elem.status = some st)
    (hopen : ¬(st = ("Completed").data ∨ st = ("Closed").data ∨ st = ("Failed").data))
    (hnull : elem.assignment_date_obj = none ∨ elem.assignment_date_obj = some none) :
    parseRecord elem = none ∧
    (parse_tasks_in_database (rs1 ++ elem :: rs2)).1
      = (parse_tasks_in_database (rs1 ++ rs2)).1 ∧
    elem ∈ (parse_tasks_in_database (rs1 ++ elem :: rs2)).2 ∧
    (∀ x : Option Str, neqNoneType x = true) := by
  have hpr : parseRecord elem = none := by
    unfold parseRecord
    rcases hnull with h | h <;> rw [h] <;>
      cases elem.name_title <;> cases elem.description_rich <;>
      cases elem.notes_rich <;> cases elem.category_multi <;>
      rfl
  have hstep : ∀ acc : List (Str × Task) × List RawRecord,
      recordStep acc elem = (acc.1, acc.2 ++ [elem]) := by
    intro acc
    simp only [recordStep, hst, if_neg hopen, hpr]
  refine ⟨hpr, ?_, ?_, fun x => rfl⟩
  · unfold parse_tasks_in_database
    rw [List.foldl_append, List.foldl_append, List.foldl_cons, hstep]
    exact ptid_foldl_fst rs2 _ _ _
  · unfold parse_tasks_in_database
    rw [List.foldl_append, List.foldl_cons, hstep]
    exact ptid_foldl_err_mem rs2 _ _ elem (List.mem_append_right _ (by simp))

/-- Witness for C10 on a concrete record whose start value is null. -/
theorem C10_witness :
    parseRecord record10 = none ∧
    (parse_tasks_in_database ([] ++ record10 :: [])).1
      = (parse_tasks_in_database ([] ++ [])).1 ∧
    record10 ∈ (parse_tasks_in_database ([] ++ record10 :: [])).2 := by
  refine ⟨?_, ?_, ?_⟩
  · exact (C10_null_assignment_errors [] [] record10 (("In Progress").data)
      rfl (by decide) (Or.inr rfl)).1
  · exact (C10_null_assignment_errors [] [] record10 (("In Progress").data)
      rfl (by decide) (Or.inr rfl)).2.1
  · exact (C10_null_assignment_errors [] [] record10 (("In Progress").data)
      rfl (by decide) (Or.inr rfl)).2.2.1

end NotionSync
